import Mathlib

/-!
# Verification of `extract_sdk_version.py`

Shallow embedding of the script
`.github/actions/setup-xenserver-sdk/extract_sdk_version.py`:

```
try:
    response = requests.get('https://www.xenserver.com/downloads')
    response.raise_for_status()
except requests.exceptions.RequestException as err:
    print ("OOps: Failed to get xenserver /downloads",err)
    exit()
soup = BeautifulSoup(response.text, 'html.parser')
pattern = re.compile(r'Software Development Kit \(SDK\) (\d+\.\d+\.\d+)')
for text in soup.stripped_strings:
    match = pattern.search(text)
    if match:
        version = match.group(1)
        sdk_url = f'https://downloads.xenserver.com/sdk/{version}/XenServer-SDK-{version}.zip'
        os.environ['GITHUB_OUTPUT'] = f'XENSERVER_SDK_URL={sdk_url}'
        break
```

The outcome of the HTTP GET is the run's input (a transport error carrying
the exception text, or a response with a status code and a parsed HTML
body).  The HTML body is modelled at the level BeautifulSoup exposes to the
script: a tree of elements and text nodes; `stripped_strings` is the
in-document-order list of text nodes, each stripped of surrounding
whitespace, with whitespace-only nodes dropped.  The regex is fixed, so it
is embedded as a direct matcher: `\d+` is greedy and, being followed by a
literal that can never be a digit, never backtracks, so the greedy
no-backtracking matcher below is exact.  A run's observable effects are the
lines printed to stdout, the successive values assigned to the
`GITHUB_OUTPUT` environment entry (the build-pipeline output sink), and the
process exit code (`exit()` with no argument exits with status 0, as does
falling off the end of the script).
-/

/-- ASCII whitespace stripped by Python's `str.strip()` (the script's text
nodes; non-ASCII whitespace is not modelled). -/
def isPySpace (c : Char) : Bool :=
  c = ' ' || c = '\t' || c = '\n' || c = '\r' || c = '\x0b' || c = '\x0c'

/-- Python `str.strip()` on the character list of a string. -/
def pyStrip (s : List Char) : List Char :=
  ((s.dropWhile isPySpace).reverse.dropWhile isPySpace).reverse

/-- The literal part of the regex `Software Development Kit \(SDK\) `. -/
def phraseChars : List Char :=
  ("Software Development Kit (SDK) ").data

/-- Greedy `\d+`-style scan: the maximal run of leading digits, and the
rest of the input. -/
def takeDigits : List Char → List Char × List Char
  | [] => ([], [])
  | c :: cs =>
    if c.isDigit then
      let p := takeDigits cs
      (c :: p.1, p.2)
    else
      ([], c :: cs)

/-- Match a literal `\.` at the head of the input; on success return the
remaining input. -/
def expectDot : List Char → Option (List Char)
  | '.' :: r => some r
  | _ => none

/-- Match the capture group `(\d+\.\d+\.\d+)` at the head of the input,
returning the captured characters.  Greedy matching is exact here: each
`\d+` is followed by `\.`, and shortening a maximal digit run can only put
another digit (never `.`) next, so no backtracking can succeed. -/
def matchNumberTriple (cs : List Char) : Option (List Char) :=
  if (takeDigits cs).1.isEmpty then none else
  match expectDot (takeDigits cs).2 with
  | none => none
  | some r1 =>
    if (takeDigits r1).1.isEmpty then none else
    match expectDot (takeDigits r1).2 with
    | none => none
    | some r2 =>
      if (takeDigits r2).1.isEmpty then none else
      some ((takeDigits cs).1 ++ '.' :: ((takeDigits r1).1 ++ '.' :: (takeDigits r2).1))

/-- Match a fixed literal at the head of the input; on success return the
remaining input. -/
def matchLiteral : List Char → List Char → Option (List Char)
  | [], rest => some rest
  | _ :: _, [] => none
  | p :: ps, c :: cs => if p = c then matchLiteral ps cs else none

/-- Try the whole pattern `Software Development Kit \(SDK\) (\d+\.\d+\.\d+)`
at the head of the input, returning group 1 on success. -/
def matchAt (cs : List Char) : Option (List Char) :=
  match matchLiteral phraseChars cs with
  | some rest => matchNumberTriple rest
  | none => none

/-- `pattern.search`: try the pattern at every start position, left to
right, returning the leftmost match's group 1. -/
def searchVersionAux : List Char → Option (List Char)
  | [] => matchAt []
  | c :: rest =>
    match matchAt (c :: rest) with
    | some v => some v
    | none => searchVersionAux rest

/-- `pattern.search(text)` followed by `match.group(1)`, on strings. -/
def searchVersion (s : String) : Option String :=
  (searchVersionAux s.data).map String.mk

mutual

/-- The parsed HTML document as BeautifulSoup exposes it to the script: a
tree of tagged elements and text nodes. -/
inductive Html where
  | text : String → Html
  | elem : String → HtmlList → Html

/-- Children of an element, in document order. -/
inductive HtmlList where
  | nil : HtmlList
  | cons : Html → HtmlList → HtmlList

end

mutual

/-- `soup.stripped_strings`: every text node in document order, stripped,
skipping nodes that strip to the empty string. -/
def Html.strippedStrings : Html → List String
  | .text s =>
    let t := pyStrip s.data
    if t.isEmpty then [] else [String.mk t]
  | .elem _ children => HtmlList.strippedStrings children

/-- `stripped_strings` over a child list. -/
def HtmlList.strippedStrings : HtmlList → List String
  | .nil => []
  | .cons h t => Html.strippedStrings h ++ HtmlList.strippedStrings t

end

mutual

/-- The document's full visible text: the concatenation, in document order,
of the raw (unstripped) text nodes (as `soup.get_text()` would return). -/
def Html.rawText : Html → String
  | .text s => s
  | .elem _ children => HtmlList.rawText children

/-- `rawText` over a child list. -/
def HtmlList.rawText : HtmlList → String
  | .nil => ""
  | .cons h t => Html.rawText h ++ HtmlList.rawText t

end

/-- `sdk_url`: the f-string
`https://downloads.xenserver.com/sdk/{version}/XenServer-SDK-{version}.zip`. -/
def sdk_url (version : String) : String :=
  ("https://downloads.xenserver.com/sdk/") ++ version ++
    ("/XenServer-SDK-") ++ version ++ (".zip")

/-- The value assigned to the `GITHUB_OUTPUT` environment entry:
`XENSERVER_SDK_URL={sdk_url}`. -/
def outputLine (version : String) : String :=
  ("XENSERVER_SDK_URL=") ++ sdk_url version

/-- The `for text in soup.stripped_strings` loop, recorded as the list of
successive assignments to the output sink: on the first text whose search
matches, one value is assigned and the loop `break`s. -/
def loopWrites : List String → List String
  | [] => []
  | t :: ts =>
    match searchVersion t with
    | some version => [outputLine version]
    | none => loopWrites ts

/-- The version the loop would extract: group 1 of the first text node, in
document order, on which `pattern.search` succeeds. -/
def findVersion : List String → Option String
  | [] => none
  | t :: ts =>
    match searchVersion t with
    | some version => some version
    | none => findVersion ts

/-- The outcome of `requests.get` + `response.raise_for_status()`, the
run's input: either a transport error (connection failure, timeout, ...)
carrying the exception text, or a response carrying the HTTP status code
and the parsed body. -/
inductive FetchOutcome where
  | transportError : String → FetchOutcome
  | response : Nat → Html → FetchOutcome

/-- `response.raise_for_status()` raises `requests.exceptions.HTTPError`
(a `RequestException`) exactly for client-error and server-error status
codes, 400–599. -/
def statusRaises (code : Nat) : Bool :=
  400 ≤ code && code < 600

/-- Whether the `try` block raises a `RequestException` (caught by the
`except` clause): a transport error, or a status `raise_for_status`
rejects. -/
def raisesRequestError : FetchOutcome → Bool
  | .transportError _ => true
  | .response code _ => statusRaises code

/-- The HTTP success class (2xx), for stating claims about "non-success"
statuses; the script itself never tests this. -/
def statusSuccess (code : Nat) : Bool :=
  200 ≤ code && code < 300

/-- A run's observable effects: lines printed to stdout, successive values
assigned to the `GITHUB_OUTPUT` environment entry, and the process exit
code. -/
structure RunOutcome where
  printed : List String
  outputWrites : List String
  exitCode : Nat
deriving DecidableEq, Repr

/-- The diagnostic printed by the `except` clause:
`print("OOps: Failed to get xenserver /downloads", err)` (the exact
rendering of the exception argument is the carried text, respectively the
status code for an `HTTPError`). -/
def diagnostic : FetchOutcome → String
  | .transportError msg => ("OOps: Failed to get xenserver /downloads ") ++ msg
  | .response code _ =>
      ("OOps: Failed to get xenserver /downloads HTTP ") ++ toString code

/-- The whole script, as a function from the fetch outcome to the run's
observable effects.  `exit()` with no argument exits with status 0, as
does falling off the end of the script, and the `except` clause catches
every `RequestException`, so every run terminates normally. -/
def run (f : FetchOutcome) : RunOutcome :=
  if raisesRequestError f then
    { printed := [diagnostic f], outputWrites := [], exitCode := 0 }
  else
    match f with
    | .transportError _ => { printed := [], outputWrites := [], exitCode := 0 }
    | .response _ doc =>
      { printed := []
        outputWrites := loopWrites (Html.strippedStrings doc)
        exitCode := 0 }

/-- The shape of every string the capture group `(\d+\.\d+\.\d+)` can
produce: exactly three dot-separated nonempty runs of digits. -/
def VersionShape (v : List Char) : Prop :=
  ∃ a b c : List Char,
    v = a ++ '.' :: (b ++ '.' :: c) ∧
    a ≠ [] ∧ b ≠ [] ∧ c ≠ [] ∧
    (∀ x ∈ a, x.isDigit = true) ∧ (∀ x ∈ b, x.isDigit = true) ∧
    (∀ x ∈ c, x.isDigit = true)

/-- Whether `needle` occurs as a contiguous run inside `hay` (used only to
state claims about a text node containing a phrase). -/
def containsSub (needle : List Char) : List Char → Bool
  | [] => needle.isEmpty
  | c :: t => needle.isPrefixOf (c :: t) || containsSub needle t

/-! ## Helper lemmas -/

/-- The loop's writes are determined by the first matching text node. -/
theorem loopWrites_eq_findVersion (ts : List String) :
    loopWrites ts =
      match findVersion ts with
      | some v => [outputLine v]
      | none => [] := by
  induction ts with
  | nil => rfl
  | cons t ts ih =>
    simp only [loopWrites, findVersion]
    cases searchVersion t with
    | some v => rfl
    | none => simpa using ih

/-- The loop assigns the output sink at most once. -/
theorem loopWrites_length_le (ts : List String) : (loopWrites ts).length ≤ 1 := by
  induction ts with
  | nil => simp [loopWrites]
  | cons t ts ih =>
    simp only [loopWrites]
    cases searchVersion t with
    | some v => simp
    | none => simpa using ih

/-- Text nodes on which the search fails do not affect the extracted
version. -/
theorem findVersion_append_none (pre rest : List String)
    (h : ∀ s ∈ pre, searchVersion s = none) :
    findVersion (pre ++ rest) = findVersion rest := by
  induction pre with
  | nil => rfl
  | cons p ps ih =>
    have hp : searchVersion p = none := h p (by simp)
    simp only [List.cons_append, findVersion, hp]
    exact ih fun s hs => h s (by simp [hs])

/-- If no text node matches, no version is extracted. -/
theorem findVersion_none (ts : List String)
    (h : ∀ s ∈ ts, searchVersion s = none) : findVersion ts = none := by
  induction ts with
  | nil => rfl
  | cons t ts ih =>
    have ht : searchVersion t = none := h t (by simp)
    simp only [findVersion, ht]
    exact ih fun s hs => h s (by simp [hs])

/-- An extracted version comes from the search succeeding on some node. -/
theorem findVersion_mem (ts : List String) (v : String)
    (h : findVersion ts = some v) : ∃ t ∈ ts, searchVersion t = some v := by
  induction ts with
  | nil => simp [findVersion] at h
  | cons t ts ih =>
    simp only [findVersion] at h
    cases hs : searchVersion t with
    | some w =>
      rw [hs] at h
      exact ⟨t, by simp, by simp [hs, ← Option.some_inj.mp h]⟩
    | none =>
      rw [hs] at h
      obtain ⟨u, hu, hsu⟩ := ih h
      exact ⟨u, by simp [hu], hsu⟩

/-- Matching a literal against itself followed by anything succeeds and
returns the remainder. -/
theorem matchLiteral_append_self (l r : List Char) :
    matchLiteral l (l ++ r) = some r := by
  induction l with
  | nil => rfl
  | cons c cs ih => simp [matchLiteral, ih]

/-- Every character in the digit run taken by `takeDigits` is a digit. -/
theorem takeDigits_all_digit (cs : List Char) :
    ∀ c ∈ (takeDigits cs).1, c.isDigit = true := by
  induction cs with
  | nil => simp [takeDigits]
  | cons c cs ih =>
    by_cases hc : c.isDigit = true
    · simp only [takeDigits, hc, if_pos]
      intro x hx
      rcases List.mem_cons.mp hx with h | h
      · exact h ▸ hc
      · exact ih x h
    · simp [takeDigits, hc]

/-- `takeDigits` on a digit run followed by a non-digit (or nothing) takes
exactly the run. -/
theorem takeDigits_append (d r : List Char)
    (hd : ∀ c ∈ d, c.isDigit = true)
    (hr : ∀ c, r.head? = some c → c.isDigit = false) :
    takeDigits (d ++ r) = (d, r) := by
  induction d with
  | nil =>
    cases r with
    | nil => rfl
    | cons c cs =>
      have : c.isDigit = false := hr c rfl
      simp [takeDigits, this]
  | cons c cs ih =>
    have hc : c.isDigit = true := hd c (by simp)
    have := ih (fun x hx => hd x (by simp [hx])) 
    simp [takeDigits, hc, this]

/-- `expectDot` succeeds exactly on inputs that start with `.`. -/
theorem expectDot_eq_some (l r : List Char) (h : expectDot l = some r) :
    l = '.' :: r := by
  unfold expectDot at h
  split at h
  · rw [Option.some_inj.mp h]
  · exact absurd h (by simp)

/-- A list whose `isEmpty` test fails is nonempty. -/
theorem ne_nil_of_isEmpty_eq_false (l : List Char) (h : l.isEmpty = false) :
    l ≠ [] := by
  cases l <;> simp_all

/-- Whatever `matchNumberTriple` captures has the three-component shape. -/
theorem matchNumberTriple_shape (cs : List Char) (v : List Char)
    (h : matchNumberTriple cs = some v) : VersionShape v := by
  unfold matchNumberTriple at h
  split at h
  · exact absurd h (by simp)
  · rename_i he1
    split at h
    · exact absurd h (by simp)
    · rename_i r1 hd1
      split at h
      · exact absurd h (by simp)
      · rename_i he2
        split at h
        · exact absurd h (by simp)
        · rename_i r2 hd2
          split at h
          · exact absurd h (by simp)
          · rename_i he3
            refine ⟨(takeDigits cs).1, (takeDigits r1).1, (takeDigits r2).1,
              (Option.some_inj.mp h).symm,
              ne_nil_of_isEmpty_eq_false _ (by simpa using he1),
              ne_nil_of_isEmpty_eq_false _ (by simpa using he2),
              ne_nil_of_isEmpty_eq_false _ (by simpa using he3),
              takeDigits_all_digit cs, takeDigits_all_digit r1,
              takeDigits_all_digit r2⟩

/-- Whatever the full pattern captures has the three-component shape. -/
theorem matchAt_shape (cs : List Char) (v : List Char)
    (h : matchAt cs = some v) : VersionShape v := by
  unfold matchAt at h
  split at h
  · exact matchNumberTriple_shape _ _ h
  · exact absurd h (by simp)

/-- Whatever `pattern.search` captures has the three-component shape. -/
theorem searchVersionAux_shape (cs : List Char) (v : List Char)
    (h : searchVersionAux cs = some v) : VersionShape v := by
  induction cs with
  | nil => exact matchAt_shape _ _ h
  | cons c rest ih =>
    rw [searchVersionAux] at h
    cases hm : matchAt (c :: rest) with
    | some w =>
      rw [hm] at h
      exact Option.some_inj.mp h ▸ matchAt_shape _ _ hm
    | none =>
      rw [hm] at h
      exact ih h

/-- String-level version of `searchVersionAux_shape`. -/
theorem searchVersion_shape (s : String) (v : String)
    (h : searchVersion s = some v) : VersionShape v.data := by
  unfold searchVersion at h
  cases hx : searchVersionAux s.data with
  | none => rw [hx] at h; simp at h
  | some w =>
    rw [hx] at h
    simp only [Option.map_some', Option.some_inj] at h
    rw [← h]
    exact searchVersionAux_shape _ _ hx

/-- A pattern match at the very first position is what the search returns. -/
theorem searchVersionAux_of_matchAt (cs : List Char) (v : List Char)
    (h : matchAt cs = some v) : searchVersionAux cs = some v := by
  cases cs with
  | nil => simpa [searchVersionAux] using h
  | cons c rest => simp [searchVersionAux, h]

/-- Forward computation of the capture group on a dotted run of digit
groups: the greedy matcher consumes the first three groups and stops. -/
theorem matchNumberTriple_triple (d1 d2 d3 rest : List Char)
    (h1 : d1 ≠ []) (h2 : d2 ≠ []) (h3 : d3 ≠ [])
    (hd1 : ∀ c ∈ d1, c.isDigit = true) (hd2 : ∀ c ∈ d2, c.isDigit = true)
    (hd3 : ∀ c ∈ d3, c.isDigit = true)
    (hrest : ∀ c, rest.head? = some c → c.isDigit = false) :
    matchNumberTriple (d1 ++ '.' :: (d2 ++ '.' :: (d3 ++ rest))) =
      some (d1 ++ '.' :: (d2 ++ '.' :: d3)) := by
  have hdot : ∀ (xs : List Char) (c : Char),
      ('.' :: xs).head? = some c → c.isDigit = false := by
    intro xs c hc
    simp only [List.head?_cons, Option.some_inj] at hc
    rw [← hc]
    decide
  have t1 := takeDigits_append d1 ('.' :: (d2 ++ '.' :: (d3 ++ rest))) hd1 (hdot _)
  have t2 := takeDigits_append d2 ('.' :: (d3 ++ rest)) hd2 (hdot _)
  have t3 := takeDigits_append d3 rest hd3 hrest
  unfold matchNumberTriple
  rw [t1]
  simp only [expectDot]
  rw [t2]
  simp only [expectDot]
  rw [t3]
  simp [List.isEmpty_iff, h1, h2, h3]

/-- Characters stripped by `str.strip()` are never digits. -/
theorem pyspace_not_digit (c : Char) (h : isPySpace c = true) :
    c.isDigit = false := by
  have hmem := h
  simp only [isPySpace, Bool.or_eq_true, decide_eq_true_eq] at hmem
  rcases hmem with ((((rfl | rfl) | rfl) | rfl) | rfl) | rfl <;> decide

/-- A digit survives `str.strip()`. -/
theorem digit_not_pyspace (c : Char) (h : c.isDigit = true) :
    isPySpace c = false := by
  cases hs : isPySpace c
  · rfl
  · rw [pyspace_not_digit c hs] at h
    exact absurd h (by simp)

/-- `str.strip()` leaves a string alone when its first and last characters
are not whitespace. -/
theorem pyStrip_sandwich (c d : Char) (mid : List Char)
    (hc : isPySpace c = false) (hd : isPySpace d = false) :
    pyStrip (c :: (mid ++ [d])) = c :: (mid ++ [d]) := by
  have h1 : List.dropWhile isPySpace (c :: (mid ++ [d])) = c :: (mid ++ [d]) := by
    simp [List.dropWhile_cons, hc]
  have h2 : (c :: (mid ++ [d])).reverse = d :: (mid.reverse ++ [c]) := by
    simp
  have h3 : List.dropWhile isPySpace (d :: (mid.reverse ++ [c])) =
      d :: (mid.reverse ++ [c]) := by
    simp [List.dropWhile_cons, hd]
  unfold pyStrip
  rw [h1, h2, h3, ← h2, List.reverse_reverse]

/-- A run whose fetch succeeds (no `RequestException`) prints nothing and
performs the extraction loop. -/
theorem run_response_ok (code : Nat) (doc : Html)
    (hcode : statusRaises code = false) :
    run (.response code doc) =
      { printed := []
        outputWrites := loopWrites (Html.strippedStrings doc)
        exitCode := 0 } := by
  have h0 : raisesRequestError (FetchOutcome.response code doc) = false := hcode
  simp [run, h0]

/-! ## Claims -/

/-- Claim C1, counterexample: a document can contain a text node with the
phrase `Software Development Kit (SDK) 9.1.0` and still not emit the
9.1.0 URL, because an earlier text node matches first (here with version
8.2.1).  The claim as stated is therefore false. -/
theorem c1_counterexample :
    (Html.strippedStrings (.elem ("body")
        (.cons (.text ("Software Development Kit (SDK) 8.2.1"))
          (.cons (.text ("Software Development Kit (SDK) 9.1.0")) .nil)))).any
      (fun s => containsSub (("Software Development Kit (SDK) 9.1.0").data) s.data) = true
    ∧ (run (.response 200 (.elem ("body")
        (.cons (.text ("Software Development Kit (SDK) 8.2.1"))
          (.cons (.text ("Software Development Kit (SDK) 9.1.0")) .nil))))).outputWrites ≠
      [("XENSERVER_SDK_URL=https://downloads.xenserver.com/sdk/9.1.0/XenServer-SDK-9.1.0.zip")] := by
  constructor
  · decide
  · decide

/-- Claim C1 (amended): for every fetched HTML document whose first
pattern match, scanning stripped text nodes in document order, captures
the version `9.1.0`, the program emits an output whose URL is
`https://downloads.xenserver.com/sdk/9.1.0/XenServer-SDK-9.1.0.zip`:
the captured version is substituted both into the path segment and into
the filename of the URL template. -/
theorem c1_url_substitution (doc : Html)
    (hmatch : findVersion (Html.strippedStrings doc) = some ("9.1.0")) :
    (run (.response 200 doc)).outputWrites =
      [("XENSERVER_SDK_URL=https://downloads.xenserver.com/sdk/9.1.0/XenServer-SDK-9.1.0.zip")] := by
  rw [run_response_ok 200 doc rfl]
  show loopWrites (Html.strippedStrings doc) = _
  rw [loopWrites_eq_findVersion, hmatch]
  rfl

/-- Claim C1 witness: a concrete document whose only text node carries the
9.1.0 phrase produces exactly the 9.1.0 URL. -/
theorem c1_url_substitution_witness :
    findVersion (Html.strippedStrings (.text ("Software Development Kit (SDK) 9.1.0"))) =
      some ("9.1.0")
    ∧ (run (.response 200 (.text ("Software Development Kit (SDK) 9.1.0")))).outputWrites =
      [("XENSERVER_SDK_URL=https://downloads.xenserver.com/sdk/9.1.0/XenServer-SDK-9.1.0.zip")] :=
  ⟨by decide, c1_url_substitution _ (by decide)⟩

/-- Claim C2: when a version phrase is matched, the program writes exactly
one key=value line, `XENSERVER_SDK_URL=` followed by the formatted URL, to
the process-wide build-pipeline output mechanism (the `GITHUB_OUTPUT`
environment entry). -/
theorem c2_single_output_line (code : Nat) (doc : Html) (v : String)
    (hcode : statusRaises code = false)
    (hmatch : findVersion (Html.strippedStrings doc) = some v) :
    (run (.response code doc)).outputWrites = [("XENSERVER_SDK_URL=") ++ sdk_url v] := by
  rw [run_response_ok code doc hcode]
  show loopWrites (Html.strippedStrings doc) = _
  rw [loopWrites_eq_findVersion, hmatch]
  rfl

/-- Claim C2 witness: a concrete matching document produces exactly one
output line with the key `XENSERVER_SDK_URL`. -/
theorem c2_single_output_line_witness :
    statusRaises 200 = false
    ∧ findVersion (Html.strippedStrings
        (.text ("XenServer Software Development Kit (SDK) 8.2.1 now available"))) =
      some ("8.2.1")
    ∧ (run (.response 200
        (.text ("XenServer Software Development Kit (SDK) 8.2.1 now available")))).outputWrites =
      [("XENSERVER_SDK_URL=") ++ sdk_url ("8.2.1")] :=
  ⟨rfl, by decide, c2_single_output_line 200 _ _ rfl (by decide)⟩

/-- Claim C3: when the stripped text nodes split as `pre ++ t :: post`
with no match in `pre` and a match capturing `v` in `t`, the emitted URL
uses `v` — the version captured from the first matching text node — and
the loop's writes do not depend on the nodes after `t` (scanning stops at
the first match). -/
theorem c3_first_match_wins (doc : Html) (pre post : List String) (t v : String)
    (hsplit : Html.strippedStrings doc = pre ++ t :: post)
    (hpre : ∀ s ∈ pre, searchVersion s = none)
    (ht : searchVersion t = some v) :
    (run (.response 200 doc)).outputWrites = [outputLine v]
    ∧ loopWrites (pre ++ t :: post) = loopWrites (pre ++ [t]) := by
  have hfv : findVersion (pre ++ t :: post) = some v := by
    rw [findVersion_append_none pre (t :: post) hpre]
    simp [findVersion, ht]
  have hfv2 : findVersion (pre ++ [t]) = some v := by
    rw [findVersion_append_none pre [t] hpre]
    simp [findVersion, ht]
  constructor
  · rw [run_response_ok 200 doc rfl]
    show loopWrites (Html.strippedStrings doc) = _
    rw [hsplit, loopWrites_eq_findVersion, hfv]
  · rw [loopWrites_eq_findVersion, hfv, loopWrites_eq_findVersion, hfv2]

/-- Claim C3 witness: a document with two version phrases emits the URL of
the first one, and the writes ignore everything after it. -/
theorem c3_first_match_wins_witness :
    Html.strippedStrings (.elem ("body")
        (.cons (.text ("Software Development Kit (SDK) 9.1.0"))
          (.cons (.text ("Software Development Kit (SDK) 8.2.1")) .nil))) =
      [] ++ ("Software Development Kit (SDK) 9.1.0") ::
        [("Software Development Kit (SDK) 8.2.1")]
    ∧ ((run (.response 200 (.elem ("body")
          (.cons (.text ("Software Development Kit (SDK) 9.1.0"))
            (.cons (.text ("Software Development Kit (SDK) 8.2.1")) .nil))))).outputWrites =
        [outputLine ("9.1.0")]
      ∧ loopWrites ([] ++ ("Software Development Kit (SDK) 9.1.0") ::
          [("Software Development Kit (SDK) 8.2.1")]) =
        loopWrites ([] ++ [("Software Development Kit (SDK) 9.1.0")])) :=
  ⟨by decide,
    c3_first_match_wins _ [] [("Software Development Kit (SDK) 8.2.1")]
      ("Software Development Kit (SDK) 9.1.0") ("9.1.0")
      (by decide) (by simp) (by decide)⟩

/-- Claim C4: for every fetched document in which no text node matches
the version phrase pattern, the program terminates producing no output,
no log message, and no error indication (exit code 0). -/
theorem c4_no_match_no_effects (code : Nat) (doc : Html)
    (hcode : statusRaises code = false)
    (hnone : ∀ s ∈ Html.strippedStrings doc, searchVersion s = none) :
    (run (.response code doc)).printed = []
    ∧ (run (.response code doc)).outputWrites = []
    ∧ (run (.response code doc)).exitCode = 0 := by
  rw [run_response_ok code doc hcode]
  refine ⟨rfl, ?_, rfl⟩
  show loopWrites (Html.strippedStrings doc) = []
  rw [loopWrites_eq_findVersion, findVersion_none _ hnone]

/-- Claim C4 witness: a document with no version phrase produces no
print, no output write, and exit code 0. -/
theorem c4_no_match_no_effects_witness :
    statusRaises 200 = false
    ∧ (∀ s ∈ Html.strippedStrings (.text ("no version here")), searchVersion s = none)
    ∧ ((run (.response 200 (.text ("no version here")))).printed = []
      ∧ (run (.response 200 (.text ("no version here")))).outputWrites = []
      ∧ (run (.response 200 (.text ("no version here")))).exitCode = 0) :=
  ⟨rfl, by decide, c4_no_match_no_effects 200 _ rfl (by decide)⟩

/-- Claim C5, counterexample: a 304 response has a non-success HTTP
status, yet the program does not print a diagnostic and does emit output
when the body matches — `raise_for_status` only raises for 4xx/5xx, so
the claim as stated (over all non-success statuses) is false. -/
theorem c5_counterexample :
    statusSuccess 304 = false
    ∧ (run (.response 304 (.text ("Software Development Kit (SDK) 9.1.0")))).printed = []
    ∧ (run (.response 304 (.text ("Software Development Kit (SDK) 9.1.0")))).outputWrites ≠ [] := by
  refine ⟨rfl, rfl, ?_⟩
  decide

/-- Claim C5 (amended): for every run in which the fetch raises a
`RequestException` — a transport error, or an HTTP error status 4xx/5xx
rejected by `raise_for_status` — the program prints exactly one diagnostic
line, terminates without emitting any output, and terminates normally
(exit code 0, no uncaught exception: `run` is total). -/
theorem c5_request_error_handling (f : FetchOutcome)
    (h : raisesRequestError f = true) :
    (run f).printed = [diagnostic f]
    ∧ (run f).outputWrites = []
    ∧ (run f).exitCode = 0 := by
  simp [run, h]

/-- Claim C5 witness: a concrete transport error prints the diagnostic,
emits nothing, and exits 0. -/
theorem c5_request_error_handling_witness :
    raisesRequestError (.transportError ("connection refused")) = true
    ∧ ((run (.transportError ("connection refused"))).printed =
        [diagnostic (.transportError ("connection refused"))]
      ∧ (run (.transportError ("connection refused"))).outputWrites = []
      ∧ (run (.transportError ("connection refused"))).exitCode = 0) :=
  ⟨rfl, c5_request_error_handling _ rfl⟩

/-- Claim C6: in every execution, whatever the fetched document contains,
the process-wide output sink is written at most once. -/
theorem c6_output_sink_at_most_once (f : FetchOutcome) :
    (run f).outputWrites.length ≤ 1 := by
  cases f with
  | transportError msg => simp [run, raisesRequestError]
  | response code doc =>
    cases hc : statusRaises code with
    | true =>
      have h0 : raisesRequestError (FetchOutcome.response code doc) = true := hc
      simp [run, h0]
    | false =>
      rw [run_response_ok code doc hc]
      exact loopWrites_length_le _

/-- Claim C7: every version string the program captures (and therefore
substitutes into the URL) consists of exactly three dot-separated
nonempty runs of digits. -/
theorem c7_version_is_dotted_triple (doc : Html) (v : String)
    (h : findVersion (Html.strippedStrings doc) = some v) :
    VersionShape v.data := by
  obtain ⟨t, _, hs⟩ := findVersion_mem _ _ h
  exact searchVersion_shape _ _ hs

/-- Claim C7 witness: the version captured from a concrete document has
the three-component shape. -/
theorem c7_version_is_dotted_triple_witness :
    findVersion (Html.strippedStrings (.text ("Software Development Kit (SDK) 10.20.30"))) =
      some ("10.20.30")
    ∧ VersionShape ("10.20.30").data :=
  ⟨by decide,
    c7_version_is_dotted_triple (.text ("Software Development Kit (SDK) 10.20.30"))
      ("10.20.30") (by decide)⟩

/-- Claim C8: in every run — in particular on the network/HTTP failure
path, where the script calls bare `exit()` — the process exits with the
interpreter's default success status code 0. -/
theorem c8_default_exit_code (f : FetchOutcome) : (run f).exitCode = 0 := by
  unfold run
  split
  · rfl
  · split <;> rfl

/-- Claim C9: if a text node carries the phrase followed by a version with
four dot-separated runs of digits (such as `9.1.0.2`), the pattern still
matches and the program captures and emits only the first three
components, silently discarding the rest. -/
theorem c9_truncates_extra_components (d1 d2 d3 d4 : List Char)
    (h1 : d1 ≠ []) (h2 : d2 ≠ []) (h3 : d3 ≠ []) (h4 : d4 ≠ [])
    (hd1 : ∀ c ∈ d1, c.isDigit = true) (hd2 : ∀ c ∈ d2, c.isDigit = true)
    (hd3 : ∀ c ∈ d3, c.isDigit = true) (hd4 : ∀ c ∈ d4, c.isDigit = true) :
    searchVersion (String.mk (phraseChars ++ (d1 ++ '.' :: (d2 ++ '.' :: (d3 ++ '.' :: d4))))) =
      some (String.mk (d1 ++ '.' :: (d2 ++ '.' :: d3)))
    ∧ (run (.response 200
        (.text (String.mk (phraseChars ++ (d1 ++ '.' :: (d2 ++ '.' :: (d3 ++ '.' :: d4)))))))).outputWrites =
      [outputLine (String.mk (d1 ++ '.' :: (d2 ++ '.' :: d3)))] := by
  have hdot4 : ∀ c, ('.' :: d4).head? = some c → c.isDigit = false := by
    intro c hc
    simp only [List.head?_cons, Option.some_inj] at hc
    rw [← hc]
    decide
  have hm : matchNumberTriple (d1 ++ '.' :: (d2 ++ '.' :: (d3 ++ '.' :: d4))) =
      some (d1 ++ '.' :: (d2 ++ '.' :: d3)) :=
    matchNumberTriple_triple d1 d2 d3 ('.' :: d4) h1 h2 h3 hd1 hd2 hd3 hdot4
  have hma : matchAt (phraseChars ++ (d1 ++ '.' :: (d2 ++ '.' :: (d3 ++ '.' :: d4)))) =
      some (d1 ++ '.' :: (d2 ++ '.' :: d3)) := by
    unfold matchAt
    rw [matchLiteral_append_self]
    exact hm
  have hsa := searchVersionAux_of_matchAt _ _ hma
  have hsv : searchVersion (String.mk (phraseChars ++ (d1 ++ '.' :: (d2 ++ '.' :: (d3 ++ '.' :: d4))))) =
      some (String.mk (d1 ++ '.' :: (d2 ++ '.' :: d3))) := by
    show (searchVersionAux (phraseChars ++ (d1 ++ '.' :: (d2 ++ '.' :: (d3 ++ '.' :: d4))))).map String.mk =
      some (String.mk (d1 ++ '.' :: (d2 ++ '.' :: d3)))
    rw [hsa]
    rfl
  refine ⟨hsv, ?_⟩
  obtain ⟨init4, dl, hd4eq⟩ := (List.eq_nil_or_concat d4).resolve_left h4
  rw [List.concat_eq_append] at hd4eq
  subst hd4eq
  have hdl : dl.isDigit = true := hd4 dl (by simp)
  have hdlns : isPySpace dl = false := digit_not_pyspace dl hdl
  have hL : phraseChars ++ (d1 ++ '.' :: (d2 ++ '.' :: (d3 ++ '.' :: (init4 ++ [dl])))) =
      'S' :: ((("oftware Development Kit (SDK) ").data ++
        (d1 ++ '.' :: (d2 ++ '.' :: (d3 ++ '.' :: init4)))) ++ [dl]) := by
    rw [show phraseChars = 'S' :: ("oftware Development Kit (SDK) ").data from rfl]
    simp [List.append_assoc]
  have hstrip : pyStrip (phraseChars ++ (d1 ++ '.' :: (d2 ++ '.' :: (d3 ++ '.' :: (init4 ++ [dl]))))) =
      phraseChars ++ (d1 ++ '.' :: (d2 ++ '.' :: (d3 ++ '.' :: (init4 ++ [dl])))) := by
    rw [hL]
    exact pyStrip_sandwich 'S' dl _ (by decide) hdlns
  have hss : Html.strippedStrings (.text (String.mk (phraseChars ++ (d1 ++ '.' :: (d2 ++ '.' :: (d3 ++ '.' :: (init4 ++ [dl]))))))) =
      [String.mk (phraseChars ++ (d1 ++ '.' :: (d2 ++ '.' :: (d3 ++ '.' :: (init4 ++ [dl])))))] := by
    rw [show Html.strippedStrings (.text (String.mk (phraseChars ++ (d1 ++ '.' :: (d2 ++ '.' :: (d3 ++ '.' :: (init4 ++ [dl]))))))) =
        (if (pyStrip (phraseChars ++ (d1 ++ '.' :: (d2 ++ '.' :: (d3 ++ '.' :: (init4 ++ [dl])))))).isEmpty then []
         else [String.mk (pyStrip (phraseChars ++ (d1 ++ '.' :: (d2 ++ '.' :: (d3 ++ '.' :: (init4 ++ [dl]))))))]) from rfl]
    rw [hstrip, hL]
    simp
  rw [run_response_ok 200 _ rfl]
  show loopWrites (Html.strippedStrings (.text (String.mk (phraseChars ++ (d1 ++ '.' :: (d2 ++ '.' :: (d3 ++ '.' :: (init4 ++ [dl])))))))) =
    [outputLine (String.mk (d1 ++ '.' :: (d2 ++ '.' :: d3)))]
  rw [hss]
  simp only [loopWrites, hsv]

/-- Claim C9 witness: the version `9.1.0.2` is captured as `9.1.0` and the
emitted line uses `9.1.0`. -/
theorem c9_truncates_extra_components_witness :
    (∀ c ∈ (['2'] : List Char), c.isDigit = true)
    ∧ searchVersion (String.mk (phraseChars ++
        (['9'] ++ '.' :: (['1'] ++ '.' :: (['0'] ++ '.' :: ['2']))))) =
      some (String.mk (['9'] ++ '.' :: (['1'] ++ '.' :: ['0'])))
    ∧ (run (.response 200 (.text (String.mk (phraseChars ++
        (['9'] ++ '.' :: (['1'] ++ '.' :: (['0'] ++ '.' :: ['2'])))))))).outputWrites =
      [outputLine (String.mk (['9'] ++ '.' :: (['1'] ++ '.' :: ['0'])))] := by
  have happ := c9_truncates_extra_components ['9'] ['1'] ['0'] ['2']
    (by decide) (by decide) (by decide) (by decide)
    (by decide) (by decide) (by decide) (by decide)
  exact ⟨by decide, happ.1, happ.2⟩

/-- Claim C10: the version phrase is matched only within a single stripped
text node: when no individual stripped text node matches, no output and no
print happen — even when the pattern does match the document's full
concatenated visible text (the phrase being split across adjacent
nodes). -/
theorem c10_split_phrase_no_match (doc : Html)
    (hnodes : ∀ s ∈ Html.strippedStrings doc, searchVersion s = none)
    (_hconcat : (searchVersion (Html.rawText doc)).isSome = true) :
    (run (.response 200 doc)).outputWrites = []
    ∧ (run (.response 200 doc)).printed = [] := by
  rw [run_response_ok 200 doc rfl]
  refine ⟨?_, rfl⟩
  show loopWrites (Html.strippedStrings doc) = []
  rw [loopWrites_eq_findVersion, findVersion_none _ hnodes]

/-- Claim C10 witness: `<p><b>Software Development Kit (SDK) </b>9.1.0</p>`
has the phrase in its concatenated text, but no single stripped node
matches (the trailing space of the first node is stripped away), so the
run emits nothing. -/
theorem c10_split_phrase_no_match_witness :
    (∀ s ∈ Html.strippedStrings (.elem ("p")
        (.cons (.elem ("b") (.cons (.text ("Software Development Kit (SDK) ")) .nil))
          (.cons (.text ("9.1.0")) .nil))), searchVersion s = none)
    ∧ (searchVersion (Html.rawText (.elem ("p")
        (.cons (.elem ("b") (.cons (.text ("Software Development Kit (SDK) ")) .nil))
          (.cons (.text ("9.1.0")) .nil))))).isSome = true
    ∧ ((run (.response 200 (.elem ("p")
        (.cons (.elem ("b") (.cons (.text ("Software Development Kit (SDK) ")) .nil))
          (.cons (.text ("9.1.0")) .nil))))).outputWrites = []
      ∧ (run (.response 200 (.elem ("p")
        (.cons (.elem ("b") (.cons (.text ("Software Development Kit (SDK) ")) .nil))
          (.cons (.text ("9.1.0")) .nil))))).printed = []) :=
  ⟨by decide, by decide,
    c10_split_phrase_no_match _ (by decide) (by decide)⟩
